import Mathlib

/-!
Verification development for the tabular feature-composition core of the
`merlin_models` repository.

The only implementation file present under `src/` is
`merlin_models/torch/features/tabular.py` (class `TabularFeatures`).  Its
data model and operations are embedded shallowly below: the sub-modules it
composes (`ContinuousFeatures`, `EmbeddingFeatures`, the text model), the
inputs, the output sizes and the aggregation live in other files of the
repository and are therefore abstract type parameters here, with the calls
into them passed as function parameters.

The embedding components (`TableConfig`, `FeatureConfig`,
`EmbeddingFeatures`, `SoftEmbedding`) have no implementation under `src/`
(only their unit tests are present), so they are modelled from the
specification; each such definition carries a doc comment starting with
`Modelled from the spec:`.
-/

namespace MerlinTorch

/-- Error raised by the Python runtime when indexing past the end of a list,
as `self.to_apply[0]` does on an empty `to_apply`. -/
inductive PyErr where
  | indexError : PyErr
deriving DecidableEq

/-- Python list indexing `xs[i]` for a nonnegative index: returns the element,
or raises `IndexError` when the index is out of range. -/
def pyListGet {α : Type} (xs : List α) (i : Nat) : Except PyErr α :=
  match xs.get? i with
  | some x => Except.ok x
  | none => Except.error PyErr.indexError

/-- The message of the construction-time assert in `TabularFeatures.__init__`. -/
def msgAtLeastOne : String := "Please provide at least one input layer"

/-- State of a constructed `TabularFeatures` module.  `M` is the (abstract)
type of the sub-modules it composes, `A` the type of aggregation strategies.
`to_apply` is the list the constructor builds by appending, in this order,
the continuous, categorical and text sub-modules that were supplied. -/
structure TabularFeatures (M A : Type) where
  continuous_module : Option M
  categorical_module : Option M
  text_embedding_module : Option M
  to_apply : List M
  aggregation : Option A

/-- Shallow embedding of `TabularFeatures.__init__`.

The Python guard is `assert (self.to_apply is not []), "Please provide at
least one input layer"`: an OBJECT-IDENTITY comparison between
`self.to_apply` and a freshly allocated empty list literal.  Object identity
is modelled by allocation ids: `self.to_apply` was bound to a list allocated
earlier in the body (id `alloc`), while the `[]` literal inside the assert is
a fresh allocation (id `alloc + 1`); two distinct allocations never share an
id.  The assert raises exactly when the identity test `is not` is false,
i.e. when the two ids coincide.

Python truthiness of the three optional sub-modules (`if continuous_module:`)
is `Option.isSome`: `None` is falsy and a module object is truthy. -/
def TabularFeatures.init {M A : Type} (alloc : Nat)
    (continuous_module categorical_module text_embedding_module : Option M)
    (aggregation : Option A) : Except String (TabularFeatures M A) :=
  let to_apply : List M :=
    continuous_module.toList ++ categorical_module.toList ++ text_embedding_module.toList
  let toApplyId : Nat := alloc
  let freshEmptyListId : Nat := alloc + 1
  if toApplyId == freshEmptyListId then
    Except.error msgAtLeastOne
  else
    Except.ok ⟨continuous_module, categorical_module, text_embedding_module, to_apply, aggregation⟩

/-- Shallow embedding of `TabularFeatures.forward`:
`return self.to_apply[0](inputs, merge_with=self.to_apply[1:] if
len(self.to_apply) > 1 else None)`.  Calling a sub-module is abstract: it is
the parameter `call`, taking the module, the full input mapping and the
optional `merge_with` collection. -/
def TabularFeatures.forward {M A I O : Type} (tf : TabularFeatures M A)
    (call : M → I → Option (List M) → O) (inputs : I) : Except PyErr O :=
  (pyListGet tf.to_apply 0).map (fun first =>
    call first inputs (if 1 < tf.to_apply.length then some (tf.to_apply.drop 1) else none))

/-- Claim C1: the spec says construction with all three sub-modules absent
fails with a configuration error mentioning "at least one input layer", and
never succeeds.  The code's guard `assert (self.to_apply is not [])`
compares object identity with a fresh empty list, which is true for every
list, so the assert never fires: construction with zero sub-modules
SUCCEEDS, contradicting the message text of the code's own assert.  This
theorem evaluates the embedded constructor at the failing input
`TabularFeatures()` (all sub-modules `None`) and shows it returns
successfully with an empty `to_apply`. -/
theorem tabularFeatures_all_none_constructs_ok :
    TabularFeatures.init 0 (none : Option Unit) none none (none : Option Unit) =
      Except.ok ⟨none, none, none, [], none⟩ := rfl

/-- Claim C2: for every allocation state and aggregation, constructing
`TabularFeatures` with all three sub-modules `None` succeeds (the
identity-based guard never fires), the resulting `to_apply` list is empty,
and every subsequent call to `forward` fails with an `IndexError` from
indexing the empty `to_apply` list: the misconfiguration is detected only at
forward time, never at construction. -/
theorem tabularFeatures_guard_never_fires_forward_index_error
    {M A I O : Type} :
    ∀ (alloc : Nat) (aggregation : Option A),
      ∃ tf : TabularFeatures M A,
        TabularFeatures.init alloc none none none aggregation = Except.ok tf ∧
        tf.to_apply = [] ∧
        ∀ (call : M → I → Option (List M) → O) (inputs : I),
          tf.forward call inputs = Except.error PyErr.indexError := by
  intro alloc aggregation
  refine ⟨⟨none, none, none, [], aggregation⟩, ?_, rfl, ?_⟩
  · simp [TabularFeatures.init]
  · intro call inputs
    rfl

/-- Shallow embedding of the classmethod `TabularFeatures.from_column_group`.
The sub-module factories `ContinuousFeatures.from_column_group` and
`EmbeddingFeatures.from_column_group` live outside `src/` and are abstract
parameters (`contFromColumnGroup`, `catFromColumnGroup`), each taking the
column group, the tag selector and the optional exclusion filter.  Tag
selectors are modelled as lists of (abstract) tags; Python truthiness of the
selector (`if continuous_tags:`) is non-emptiness.  The commented-out text
block in the source never runs: `text_model` is passed through unchanged as
the `text_embedding_module`. -/
def TabularFeatures.from_column_group {M A CG Tg F : Type}
    (contFromColumnGroup : CG → List Tg → Option F → M)
    (catFromColumnGroup : CG → List Tg → Option F → M)
    (alloc : Nat)
    (column_group : CG)
    (continuous_tags : List Tg) (continuous_tags_to_filter : Option F)
    (categorical_tags : List Tg) (categorical_tags_to_filter : Option F)
    (text_model : Option M)
    (aggregation : Option A) : Except String (TabularFeatures M A) :=
  let maybe_continuous_module : Option M :=
    if continuous_tags.isEmpty then none
    else some (contFromColumnGroup column_group continuous_tags continuous_tags_to_filter)
  let maybe_categorical_module : Option M :=
    if categorical_tags.isEmpty then none
    else some (catFromColumnGroup column_group categorical_tags categorical_tags_to_filter)
  TabularFeatures.init alloc maybe_continuous_module maybe_categorical_module
    text_model aggregation

/-- Python `dict.update` on association lists: keys already in `d` keep
their position but take the value from `e` when `e` also has the key; keys
of `e` absent from `d` are appended in the order of `e`. -/
def dictUpdate {S : Type} (d e : List (String × S)) : List (String × S) :=
  d.map (fun p => (p.1, (e.lookup p.1).getD p.2)) ++
    e.filter (fun p => (d.lookup p.1).isNone)

/-- Shallow embedding of the loop in `TabularFeatures.forward_output_size`:
`output_sizes = {}` followed by `output_sizes.update(in_layer.forward_output_size(input_size))`
for each `in_layer` in `to_apply`.  Each sub-module's own
`forward_output_size` is the abstract parameter `layerFos`. -/
def TabularFeatures.output_sizes {M A I S : Type} (tf : TabularFeatures M A)
    (layerFos : M → I → List (String × S)) (input_size : I) : List (String × S) :=
  tf.to_apply.foldl (fun acc in_layer => dictUpdate acc (layerFos in_layer input_size)) []

/-- Shallow embedding of `TabularFeatures.forward_output_size`: the union of
the sub-modules' output sizes is passed to `super().forward_output_size`,
the aggregation-dependent size transform of `TabularModule` (outside `src/`,
abstract parameter `superFos`, given the stored aggregation). -/
def TabularFeatures.forward_output_size {M A I S R : Type} (tf : TabularFeatures M A)
    (layerFos : M → I → List (String × S))
    (superFos : Option A → List (String × S) → R) (input_size : I) : R :=
  superFos tf.aggregation (tf.output_sizes layerFos input_size)

/-- The construction-time guard of `TabularFeatures.__init__` never fires:
the allocation ids of `self.to_apply` and of the fresh `[]` literal in the
assert always differ, so `init` always succeeds, returning the module whose
`to_apply` is the concatenation of the supplied sub-modules in the order
continuous, categorical, text. -/
theorem TabularFeatures.init_eq_ok {M A : Type} (alloc : Nat)
    (cont cat text : Option M) (agg : Option A) :
    TabularFeatures.init alloc cont cat text agg =
      Except.ok ⟨cont, cat, text,
        cont.toList ++ cat.toList ++ text.toList, agg⟩ := by
  simp [TabularFeatures.init]

/-- Claim C3: with at least one sub-module configured, `forward` applies the
first configured sub-module (order continuous, categorical, text) to the
full input mapping, passing the remaining configured sub-modules, in that
order, as the `merge_with` collection, and `None` when only one sub-module
is configured. -/
theorem tabularFeatures_forward_dispatch {M A I O : Type}
    (alloc : Nat) (cont cat text : Option M) (aggregation : Option A)
    (call : M → I → Option (List M) → O) (inputs : I)
    (first : M) (rest : List M)
    (h : cont.toList ++ cat.toList ++ text.toList = first :: rest) :
    ∃ tf : TabularFeatures M A,
      TabularFeatures.init alloc cont cat text aggregation = Except.ok tf ∧
      tf.to_apply = first :: rest ∧
      tf.forward call inputs =
        Except.ok (call first inputs (if rest.isEmpty then none else some rest)) := by
  have hinit := TabularFeatures.init_eq_ok (A := A) alloc cont cat text aggregation
  rw [h] at hinit
  refine ⟨_, hinit, rfl, ?_⟩
  simp only [TabularFeatures.forward, pyListGet, List.get?, Except.map]
  cases rest with
  | nil => rfl
  | cons r rs =>
      have hlen : 1 < (first :: r :: rs).length := by
        simp only [List.length_cons]
        omega
      rw [if_pos hlen]
      rfl

/-- Witness for C3 at a concrete input: continuous and categorical
sub-modules supplied, text absent; the first applied module is the
continuous one and the categorical one is the merge collection. -/
theorem tabularFeatures_forward_dispatch_witness :
    ∃ tf : TabularFeatures Nat Unit,
      TabularFeatures.init 5 (some 10) (some 20) none (none : Option Unit) = Except.ok tf ∧
      tf.to_apply = 10 :: [20] ∧
      tf.forward (fun m (_ : Nat) mw => (m, mw)) 0 =
        Except.ok ((fun m (_ : Nat) mw => (m, mw)) 10 0
          (if ([20] : List Nat).isEmpty then none else some [20])) :=
  tabularFeatures_forward_dispatch 5 (some 10) (some 20) none none
    (fun m _ mw => (m, mw)) 0 10 [20] rfl

/-- Claim C4: `from_column_group` builds the continuous sub-module through
the `ContinuousFeatures` factory exactly when the continuous tag selector is
non-empty (with the given tags and exclusion filter), builds the categorical
sub-module through the `EmbeddingFeatures` factory exactly when the
categorical tag selector is non-empty, passes the supplied `text_model`
through unchanged as the text-embedding module, and composes the result via
the `TabularFeatures` constructor with the given aggregation. -/
theorem tabularFeatures_from_column_group_spec {M A CG Tg F : Type}
    (contFromColumnGroup catFromColumnGroup : CG → List Tg → Option F → M)
    (alloc : Nat) (column_group : CG)
    (continuous_tags : List Tg) (continuous_tags_to_filter : Option F)
    (categorical_tags : List Tg) (categorical_tags_to_filter : Option F)
    (text_model : Option M) (aggregation : Option A) :
    ∃ tf : TabularFeatures M A,
      TabularFeatures.from_column_group contFromColumnGroup catFromColumnGroup
        alloc column_group continuous_tags continuous_tags_to_filter
        categorical_tags categorical_tags_to_filter text_model aggregation =
          Except.ok tf ∧
      tf.continuous_module = (if continuous_tags.isEmpty then none
        else some (contFromColumnGroup column_group continuous_tags
          continuous_tags_to_filter)) ∧
      tf.categorical_module = (if categorical_tags.isEmpty then none
        else some (catFromColumnGroup column_group categorical_tags
          categorical_tags_to_filter)) ∧
      tf.text_embedding_module = text_model ∧
      tf.aggregation = aggregation := by
  exact ⟨_, TabularFeatures.init_eq_ok alloc _ _ _ _, rfl, rfl, rfl, rfl⟩

/-- Claim C5: `forward_output_size` equals the superclass (aggregation) size
transform applied to the dict-update union of each configured sub-module's
own `forward_output_size`, taken over the configured sub-modules in the
order continuous, categorical, text. -/
theorem tabularFeatures_forward_output_size_spec {M A I S R : Type}
    (alloc : Nat) (cont cat text : Option M) (aggregation : Option A)
    (layerFos : M → I → List (String × S))
    (superFos : Option A → List (String × S) → R) (input_size : I)
    (tf : TabularFeatures M A)
    (h : TabularFeatures.init alloc cont cat text aggregation = Except.ok tf) :
    tf.forward_output_size layerFos superFos input_size =
      superFos aggregation
        (((cont.toList ++ cat.toList ++ text.toList).map
          (fun m => layerFos m input_size)).foldl dictUpdate []) := by
  rw [TabularFeatures.init_eq_ok] at h
  injection h with h'
  subst h'
  simp only [TabularFeatures.forward_output_size, TabularFeatures.output_sizes,
    List.foldl_map]

/-- Witness for C5 at a concrete input: two configured sub-modules, the
union computed over them in order. -/
theorem tabularFeatures_forward_output_size_spec_witness :
    TabularFeatures.forward_output_size
      (⟨some 1, none, some 2, [1, 2], none⟩ : TabularFeatures Nat Unit)
      (fun m (_ : Unit) => [(String.mk ['k'], m)]) (fun _ d => d) () =
      (fun (_ : Option Unit) d => d) none
        ((((some 1 : Option Nat).toList ++ (none : Option Nat).toList ++
          (some 2 : Option Nat).toList).map
            (fun m => (fun m (_ : Unit) => [(String.mk ['k'], m)]) m ())).foldl
          dictUpdate []) :=
  tabularFeatures_forward_output_size_spec 0 (some 1) none (some 2) none
    (fun m _ => [(String.mk ['k'], m)]) (fun _ d => d) () _ rfl

/-- Key used in concrete witness instantiations. -/
def keyA : String := String.mk ['a']

/-- Looking up a key in the filtered tail of `dictUpdate`: entries of `e`
whose key the predicate rejects are gone, the rest keep their order, so the
lookup is that of `e` when the predicate accepts `k` and `none` otherwise. -/
theorem lookup_filter_notin {S : Type} (d e : List (String × S)) (k : String) :
    (e.filter (fun p => (d.lookup p.1).isNone)).lookup k =
      if (d.lookup k).isNone then e.lookup k else none := by
  induction e with
  | nil => cases hd : (d.lookup k).isNone <;> simp [hd]
  | cons p e ih =>
    obtain ⟨k', v⟩ := p
    by_cases hk : k = k'
    · subst hk
      cases hd : (d.lookup k).isNone <;> simp [List.filter_cons, hd, List.lookup, ih]
    · have hbeq : (k == k') = false := by
        simp [hk]
      cases hd' : (d.lookup k').isNone <;>
        simp [List.filter_cons, hd', List.lookup, hbeq, ih]

/-- Looking up a key in the overwritten copy of `d` inside `dictUpdate`. -/
theorem lookup_map_overwrite {S : Type} (d e : List (String × S)) (k : String) :
    (d.map (fun p => (p.1, (e.lookup p.1).getD p.2))).lookup k =
      (d.lookup k).map (fun v => (e.lookup k).getD v) := by
  induction d with
  | nil => simp
  | cons p d ih =>
    obtain ⟨k', v⟩ := p
    by_cases hk : k = k'
    · subst hk
      simp [List.lookup]
    · have hbeq : (k == k') = false := by
        simp [hk]
      simp [List.lookup, hbeq, ih]

/-- Lookup distributes over list append, preferring the left list. -/
theorem lookup_append_or {S : Type} (l1 l2 : List (String × S)) (k : String) :
    (l1 ++ l2).lookup k = (l1.lookup k).or (l2.lookup k) := by
  induction l1 with
  | nil => simp [Option.or]
  | cons p l1 ih =>
    obtain ⟨k', v⟩ := p
    by_cases hk : k = k'
    · subst hk
      simp [List.lookup, Option.or]
    · have hbeq : (k == k') = false := by
        simp [hk]
      simp [List.lookup, hbeq, ih]

/-- Value semantics of the Python `dict.update` model: a key present in `e`
takes `e`'s (new) value, a key only in `d` keeps `d`'s value. -/
theorem lookup_dictUpdate {S : Type} (d e : List (String × S)) (k : String) :
    (dictUpdate d e).lookup k = (e.lookup k).or (d.lookup k) := by
  unfold dictUpdate
  rw [lookup_append_or, lookup_map_overwrite, lookup_filter_notin]
  cases hd : d.lookup k with
  | none => cases he : e.lookup k <;> simp [Option.or]
  | some v => cases he : e.lookup k <;> simp [Option.or]

/-- Updating the empty dict with `e` gives back `e`. -/
theorem dictUpdate_nil {S : Type} (e : List (String × S)) :
    dictUpdate [] e = e := by
  simp [dictUpdate, List.lookup]

/-- Claim C6: in `forward_output_size`, when two configured sub-modules both
report an output size for the same feature name, the size reported by the
later sub-module (in the order continuous, categorical, text) silently
overwrites the earlier one in the returned union, per dictionary-update
semantics, and no error is raised (the union is a total function of the
sub-modules' reports). -/
theorem tabularFeatures_output_sizes_collision_last_wins {M A I S : Type}
    (alloc : Nat) (m1 m2 : M) (aggregation : Option A)
    (layerFos : M → I → List (String × S)) (input_size : I)
    (tf : TabularFeatures M A)
    (h : TabularFeatures.init alloc (some m1) (some m2) none aggregation = Except.ok tf)
    (k : String) (v1 v2 : S)
    (_h1 : (layerFos m1 input_size).lookup k = some v1)
    (h2 : (layerFos m2 input_size).lookup k = some v2) :
    (tf.output_sizes layerFos input_size).lookup k = some v2 := by
  rw [TabularFeatures.init_eq_ok] at h
  injection h with h'
  subst h'
  show (List.foldl _ [] [m1, m2]).lookup k = some v2
  simp only [List.foldl]
  rw [dictUpdate_nil, lookup_dictUpdate, h2]
  rfl

/-- Witness for C6 at a concrete input: two sub-modules both reporting a
size for the key `keyA`; the union holds the later module's size. -/
theorem tabularFeatures_output_sizes_collision_last_wins_witness :
    (TabularFeatures.output_sizes
      (⟨some 1, some 2, none, [1, 2], none⟩ : TabularFeatures Nat Unit)
      (fun m (_ : Unit) => [(keyA, m)]) ()).lookup keyA = some 2 :=
  tabularFeatures_output_sizes_collision_last_wins 0 1 2 none
    (fun m _ => [(keyA, m)]) () _ (by rfl) keyA 1 2 (by simp) (by simp)

/-- A Python value passed as an initializer argument, abstracted to the one
capability the construction-time check inspects: whether it is callable. -/
structure PyObject where
  callable : Bool

/-- The validation message of the TableConfig constructor. -/
def msgInitializerCallable : String := "initializer must be callable if specified"

/-- Modelled from the spec: the file defining `TableConfig`
(`merlin_models/torch/features/embedding.py`) is not under `src/`; per
spec section 4.1 a TableConfig holds {capacity, dimension, optional
initializer, optional name}. -/
structure TableConfig where
  vocabulary_size : Nat
  dim : Nat
  initializerArg : Option PyObject
  name : Option String

/-- Modelled from the spec: `TableConfig.__init__` validates that the
initializer, if supplied, is callable, and otherwise fails with a value
error whose message is "initializer must be callable if specified"
(spec section 4.1 and the testable property quoting the message). -/
def TableConfig.make (vocabulary_size dim : Nat)
    (initializerArg : Option PyObject) (name : Option String) :
    Except String TableConfig :=
  match initializerArg with
  | some obj =>
    if obj.callable then Except.ok ⟨vocabulary_size, dim, some obj, name⟩
    else Except.error msgInitializerCallable
  | none => Except.ok ⟨vocabulary_size, dim, none, name⟩

/-- Claim C9: for every capacity and dimension, constructing a TableConfig
with a supplied non-callable initializer fails with a value error whose
message is "initializer must be callable if specified" (so in particular
contains it); construction with a callable initializer, or with no
initializer, succeeds. -/
theorem tableConfig_make_validates (v d : Nat) (o : Option PyObject)
    (nm : Option String) :
    (∀ obj, o = some obj → obj.callable = false →
      TableConfig.make v d o nm = Except.error msgInitializerCallable) ∧
    (∀ obj, o = some obj → obj.callable = true →
      TableConfig.make v d o nm = Except.ok ⟨v, d, o, nm⟩) ∧
    (o = none → TableConfig.make v d o nm = Except.ok ⟨v, d, none, nm⟩) := by
  refine ⟨?_, ?_, ?_⟩
  · intro obj ho hc
    subst ho
    simp [TableConfig.make, hc]
  · intro obj ho hc
    subst ho
    simp [TableConfig.make, hc]
  · intro ho
    subst ho
    rfl

/-- Witness for C9 at concrete inputs: a non-callable initializer is
rejected with the message, a callable one and an absent one are accepted. -/
theorem tableConfig_make_validates_witness :
    TableConfig.make 100 15 (some ⟨false⟩) none = Except.error msgInitializerCallable ∧
    TableConfig.make 100 15 (some ⟨true⟩) none = Except.ok ⟨100, 15, some ⟨true⟩, none⟩ ∧
    TableConfig.make 100 15 none none = Except.ok ⟨100, 15, none, none⟩ :=
  ⟨(tableConfig_make_validates 100 15 (some ⟨false⟩) none).1 ⟨false⟩ rfl rfl,
   (tableConfig_make_validates 100 15 (some ⟨true⟩) none).2.1 ⟨true⟩ rfl rfl,
   (tableConfig_make_validates 100 15 none none).2.2 rfl⟩

/-- Modelled from the spec: `FeatureConfig` (spec section 3) binds a
TableConfig to a named feature, with an optional maximum sequence length. -/
structure FeatureConfig where
  table : TableConfig
  max_sequence_length : Option Nat

/-- Modelled from the spec: `EmbeddingFeatures.forward` (spec section 4.2)
is absent from `src/`; tensors are modelled by their shapes (lists of
dimension sizes).  For each feature of the config mapping, in the mapping's
iteration order, the input tensor of that name is looked up and embedded:
the output shape is the input shape with one trailing dimension equal to
the feature's table dimension. -/
def EmbeddingFeatures.forwardShapes (feature_config : List (String × FeatureConfig))
    (inputs : List (String × List Nat)) : List (String × List Nat) :=
  feature_config.filterMap (fun nc =>
    (inputs.lookup nc.1).map (fun shape => (nc.1, shape ++ [nc.2.table.dim])))

/-- A key that occurs among the keys of an association list has a value. -/
theorem lookup_isSome_of_mem_keys {S : Type} (l : List (String × S)) (k : String)
    (h : k ∈ l.map Prod.fst) : ∃ v, l.lookup k = some v := by
  induction l with
  | nil => simp at h
  | cons p l ih =>
    obtain ⟨k', v⟩ := p
    by_cases hk : k = k'
    · subst hk
      exact ⟨v, by simp [List.lookup]⟩
    · have hbeq : (k == k') = false := by
        simp [hk]
      have hmem : k ∈ l.map Prod.fst := by
        simp only [List.map_cons, List.mem_cons] at h
        exact h.resolve_left hk
      obtain ⟨w, hw⟩ := ih hmem
      exact ⟨w, by simp [List.lookup, hbeq, hw]⟩

/-- When every configured feature occurs in the input mapping, the output of
the modelled `EmbeddingFeatures.forward` lists exactly the configured
feature names, in configuration order. -/
theorem forwardShapes_keys (feature_config : List (String × FeatureConfig))
    (inputs : List (String × List Nat))
    (hsub : ∀ k ∈ feature_config.map Prod.fst, k ∈ inputs.map Prod.fst) :
    (EmbeddingFeatures.forwardShapes feature_config inputs).map Prod.fst =
      feature_config.map Prod.fst := by
  induction feature_config with
  | nil => rfl
  | cons nc fc ih =>
    obtain ⟨s, hs⟩ := lookup_isSome_of_mem_keys inputs nc.1
      (hsub nc.1 (by simp))
    have ih' := ih (fun k hk => hsub k (by simp [hk]))
    simp [EmbeddingFeatures.forwardShapes, hs] at ih' ⊢
    exact ih'

/-- Claim C7: for every feature-config mapping and every input mapping whose
key set agrees with the configuration's (each tensor keyed by a configured
feature), the modelled `EmbeddingFeatures` forward returns a mapping whose
keys are exactly the configured names in configuration iteration order —
hence exactly the input mapping's key set — and the value for each feature
is the input shape with one trailing dimension equal to that feature's
configured table dimension. -/
theorem embeddingFeatures_forward_keys_and_dims
    (feature_config : List (String × FeatureConfig))
    (inputs : List (String × List Nat))
    (hnd : (feature_config.map Prod.fst).Nodup)
    (hkeys : ∀ k, k ∈ feature_config.map Prod.fst ↔ k ∈ inputs.map Prod.fst) :
    ((EmbeddingFeatures.forwardShapes feature_config inputs).map Prod.fst =
      feature_config.map Prod.fst) ∧
    (∀ k, k ∈ (EmbeddingFeatures.forwardShapes feature_config inputs).map Prod.fst ↔
      k ∈ inputs.map Prod.fst) ∧
    (∀ n c, (n, c) ∈ feature_config → ∀ s, inputs.lookup n = some s →
      (EmbeddingFeatures.forwardShapes feature_config inputs).lookup n =
        some (s ++ [c.table.dim])) := by
  have hsub : ∀ k ∈ feature_config.map Prod.fst, k ∈ inputs.map Prod.fst :=
    fun k hk => (hkeys k).mp hk
  have hkeq := forwardShapes_keys feature_config inputs hsub
  refine ⟨hkeq, ?_, ?_⟩
  · intro k
    rw [hkeq]
    exact hkeys k
  · intro n c hmem s hs
    clear hkeq hkeys
    induction feature_config with
    | nil => simp at hmem
    | cons nc fc ih =>
      obtain ⟨n', c'⟩ := nc
      obtain ⟨s', hs'⟩ := lookup_isSome_of_mem_keys inputs n' (hsub n' (by simp))
      simp only [List.mem_cons, Prod.mk.injEq] at hmem
      rcases hmem with ⟨hn, hc⟩ | hmem'
      · subst hn
        subst hc
        rw [hs] at hs'
        injection hs' with hss
        subst hss
        simp [EmbeddingFeatures.forwardShapes, hs, List.lookup]
      · have hn : n ≠ n' := by
          intro hcontra
          subst hcontra
          rw [List.map_cons, List.nodup_cons] at hnd
          exact hnd.1 (List.mem_map.mpr ⟨(n, c), hmem', rfl⟩)
        have hbeq : (n == n') = false := by
          simp [hn]
        have hnd' : (fc.map Prod.fst).Nodup := by
          rw [List.map_cons, List.nodup_cons] at hnd
          exact hnd.2
        have ih' := ih hnd' (fun k hk => hsub k (by simp [hk])) hmem'
        simp [EmbeddingFeatures.forwardShapes, hs', List.lookup, hbeq] at ih' ⊢
        exact ih'

/-- Witness for C7 at a concrete input: one configured feature `keyA` of
table dimension 15, input of shape [10, 20]; the output maps `keyA` to shape
[10, 20, 15]. -/
theorem embeddingFeatures_forward_keys_and_dims_witness :
    ((EmbeddingFeatures.forwardShapes
        [(keyA, ⟨⟨100, 15, none, none⟩, none⟩)] [(keyA, [10, 20])]).map Prod.fst =
      [(keyA, (⟨⟨100, 15, none, none⟩, none⟩ : FeatureConfig))].map Prod.fst) ∧
    (∀ k, k ∈ (EmbeddingFeatures.forwardShapes
        [(keyA, ⟨⟨100, 15, none, none⟩, none⟩)] [(keyA, [10, 20])]).map Prod.fst ↔
      k ∈ [(keyA, [10, 20])].map Prod.fst) ∧
    (∀ n c, (n, c) ∈ [(keyA, (⟨⟨100, 15, none, none⟩, none⟩ : FeatureConfig))] →
      ∀ s, ([(keyA, [10, 20])] : List (String × List Nat)).lookup n = some s →
        (EmbeddingFeatures.forwardShapes
          [(keyA, ⟨⟨100, 15, none, none⟩, none⟩)] [(keyA, [10, 20])]).lookup n =
          some (s ++ [c.table.dim])) :=
  embeddingFeatures_forward_keys_and_dims
    [(keyA, ⟨⟨100, 15, none, none⟩, none⟩)] [(keyA, [10, 20])]
    (by simp) (by simp)

/-- The shared tail of both SoftEmbedding assertion messages. -/
def msgGreaterThanZero : String := "greater than 0"

/-- Head of the assertion message for a non-positive number of embeddings. -/
def msgSoftNumHead : String :=
  "The number of embeddings for soft embeddings needs to be "

/-- Head of the assertion message for a non-positive embeddings dimension. -/
def msgSoftDimHead : String :=
  "The embeddings dim for soft embeddings needs to be "

/-- Assertion message for a non-positive number of embeddings. -/
def msgSoftNum : String := msgSoftNumHead ++ msgGreaterThanZero

/-- Assertion message for a non-positive embeddings dimension. -/
def msgSoftDim : String := msgSoftDimHead ++ msgGreaterThanZero

/-- Modelled from the spec: `SoftEmbedding` (spec section 4.3) is absent
from `src/`; its construction-relevant state is the pair of sizes of the
internal embedding table. -/
structure SoftEmbedding where
  num_embeddings : Int
  embeddings_dim : Int

/-- Modelled from the spec: `SoftEmbedding.__init__` asserts that
`num_embeddings` is strictly positive (message naming the number-of-
embeddings constraint) and then that `embeddings_dim` is strictly positive
(message naming the dimension constraint), per spec section 4.3 and the
messages asserted by the unit tests. -/
def SoftEmbedding.make (num_embeddings embeddings_dim : Int) :
    Except String SoftEmbedding :=
  if num_embeddings ≤ 0 then Except.error msgSoftNum
  else if embeddings_dim ≤ 0 then Except.error msgSoftDim
  else Except.ok ⟨num_embeddings, embeddings_dim⟩

/-- Claim C10: constructing a SoftEmbedding with `num_embeddings ≤ 0` fails
with the assertion message naming the number-of-embeddings constraint;
with positive `num_embeddings` and `embeddings_dim ≤ 0` it fails with the
message naming the dimension constraint; whenever `embeddings_dim ≤ 0` the
failure message ends in "greater than 0" (whichever assert fires first);
and construction succeeds exactly when both are strictly positive. -/
theorem softEmbedding_make_validates (n d : Int) :
    (n ≤ 0 → SoftEmbedding.make n d = Except.error msgSoftNum) ∧
    (0 < n → d ≤ 0 → SoftEmbedding.make n d = Except.error msgSoftDim) ∧
    (d ≤ 0 → ∃ pre, SoftEmbedding.make n d =
      Except.error (pre ++ msgGreaterThanZero)) ∧
    (0 < n → 0 < d → SoftEmbedding.make n d = Except.ok ⟨n, d⟩) := by
  refine ⟨?_, ?_, ?_, ?_⟩
  · intro hn
    simp [SoftEmbedding.make, hn]
  · intro hn hd
    rw [SoftEmbedding.make, if_neg (by omega), if_pos hd]
  · intro hd
    by_cases hn : n ≤ 0
    · exact ⟨msgSoftNumHead, by simp [SoftEmbedding.make, hn, msgSoftNum]⟩
    · exact ⟨msgSoftDimHead, by rw [SoftEmbedding.make, if_neg hn, if_pos hd, msgSoftDim]⟩
  · intro hn hd
    rw [SoftEmbedding.make, if_neg (by omega), if_neg (by omega)]

/-- Witness for C10 at the tests' concrete inputs: (0, 16) fails on the
number of embeddings, (10, 0) fails on the dimension with a message ending
in "greater than 0", and (64, 16) succeeds. -/
theorem softEmbedding_make_validates_witness :
    SoftEmbedding.make 0 16 = Except.error msgSoftNum ∧
    SoftEmbedding.make 10 0 = Except.error msgSoftDim ∧
    (∃ pre, SoftEmbedding.make 10 0 = Except.error (pre ++ msgGreaterThanZero)) ∧
    SoftEmbedding.make 64 16 = Except.ok ⟨64, 16⟩ :=
  ⟨(softEmbedding_make_validates 0 16).1 (by decide),
   (softEmbedding_make_validates 10 0).2.1 (by decide) (by decide),
   (softEmbedding_make_validates 10 0).2.2.1 (by decide),
   (softEmbedding_make_validates 64 16).2.2.2 (by decide) (by decide)⟩

/-- Fuel-bounded search for the least `d` starting at `d` with
`mNum ^ 4 * capacity ≤ d ^ 4 * mDen ^ 4`, the integral characterization of
`mNum / mDen * capacity ^ (1/4) ≤ d`. -/
def leastDimFrom (mNum mDen capacity : Nat) : Nat → Nat → Nat
  | 0, d => d
  | fuel + 1, d =>
    if mNum ^ 4 * capacity ≤ d ^ 4 * mDen ^ 4 then d
    else leastDimFrom mNum mDen capacity fuel (d + 1)

/-- Modelled from the spec: the automatic embedding-size inference of
`EmbeddingFeatures.from_schema` (absent from `src/`) computes
`dim = ceil(multiplier * capacity ** 0.25)` per spec section 4.2.  The
multiplier is the nonnegative rational `mNum / mDen`, and the ceiling is
computed exactly as the least natural `d` with
`multiplier * capacity ^ (1/4) ≤ d`, i.e. `mNum ^ 4 * capacity ≤ d ^ 4 * mDen ^ 4`;
the equivalence with the real-valued ceiling is proved below. -/
def inferEmbeddingDim (mNum mDen capacity : Nat) : Nat :=
  leastDimFrom mNum mDen capacity (mNum * capacity + 1) 0

/-- Modelled from the spec: with embedding-size inference enabled,
`from_schema` allocates for a categorical column of vocabulary size
`capacity` an embedding table whose weight shape is
`(capacity, inferred dimension)`. -/
def inferredTableShape (mNum mDen capacity : Nat) : Nat × Nat :=
  (capacity, inferEmbeddingDim mNum mDen capacity)

/-- The search result satisfies the bound whenever the value at the fuel
horizon does. -/
theorem leastDimFrom_sat (mNum mDen capacity : Nat) :
    ∀ (fuel d : Nat), mNum ^ 4 * capacity ≤ (d + fuel) ^ 4 * mDen ^ 4 →
      mNum ^ 4 * capacity ≤ (leastDimFrom mNum mDen capacity fuel d) ^ 4 * mDen ^ 4 := by
  intro fuel
  induction fuel with
  | zero =>
    intro d h
    simpa [leastDimFrom] using h
  | succ fuel ih =>
    intro d h
    rw [leastDimFrom]
    by_cases hd : mNum ^ 4 * capacity ≤ d ^ 4 * mDen ^ 4
    · rw [if_pos hd]
      exact hd
    · rw [if_neg hd]
      exact ih (d + 1) (by
        have harr : d + 1 + fuel = d + (fuel + 1) := by omega
        rw [harr]
        exact h)

/-- No value between the start and the search result satisfies the bound:
the result is least among candidates at or above the start. -/
theorem leastDimFrom_least (mNum mDen capacity : Nat) :
    ∀ (fuel d e : Nat), d ≤ e → e < leastDimFrom mNum mDen capacity fuel d →
      ¬ (mNum ^ 4 * capacity ≤ e ^ 4 * mDen ^ 4) := by
  intro fuel
  induction fuel with
  | zero =>
    intro d e hde he
    rw [leastDimFrom] at he
    omega
  | succ fuel ih =>
    intro d e hde he
    rw [leastDimFrom] at he
    by_cases hd : mNum ^ 4 * capacity ≤ d ^ 4 * mDen ^ 4
    · rw [if_pos hd] at he
      omega
    · rw [if_neg hd] at he
      rcases Nat.eq_or_lt_of_le hde with heq | hlt
      · subst heq
        exact hd
      · exact ih (d + 1) e hlt he

/-- The fuel horizon `mNum * capacity + 1` always satisfies the bound when
the multiplier denominator is positive. -/
theorem satAtBound (mNum mDen capacity : Nat) (hden : 0 < mDen) :
    mNum ^ 4 * capacity ≤ (mNum * capacity + 1) ^ 4 * mDen ^ 4 := by
  have h1 : capacity ≤ capacity ^ 4 := Nat.le_self_pow (by norm_num) capacity
  have h5 : 0 < mDen ^ 4 := Nat.pos_pow_of_pos 4 hden
  calc mNum ^ 4 * capacity
      ≤ mNum ^ 4 * capacity ^ 4 := Nat.mul_le_mul_left _ h1
    _ = (mNum * capacity) ^ 4 := (mul_pow mNum capacity 4).symm
    _ ≤ (mNum * capacity + 1) ^ 4 := Nat.pow_le_pow_left (Nat.le_succ _) 4
    _ ≤ (mNum * capacity + 1) ^ 4 * mDen ^ 4 := Nat.le_mul_of_pos_right _ h5

/-- The integrally computed inferred dimension equals the real-valued
ceiling `ceil(mNum / mDen * capacity ^ (1/4))` of the spec's inference
formula, for every positive denominator. -/
theorem inferEmbeddingDim_eq_ceil (mNum mDen capacity : Nat) (hden : 0 < mDen) :
    inferEmbeddingDim mNum mDen capacity =
      Nat.ceil ((mNum : ℝ) / (mDen : ℝ) * (capacity : ℝ) ^ ((4 : ℝ))⁻¹) := by
  set D := inferEmbeddingDim mNum mDen capacity with hD
  set x : ℝ := (mNum : ℝ) / (mDen : ℝ) * (capacity : ℝ) ^ ((4 : ℝ))⁻¹ with hx
  have hx0 : 0 ≤ x := by
    rw [hx]
    have := Real.rpow_nonneg (Nat.cast_nonneg capacity) ((4 : ℝ))⁻¹
    positivity
  have hmden4 : (0 : ℝ) < (mDen : ℝ) ^ 4 := by positivity
  have hx4 : x ^ (4 : ℕ) = (mNum : ℝ) ^ 4 * (capacity : ℝ) / (mDen : ℝ) ^ 4 := by
    rw [hx, mul_pow, div_pow]
    have hc : ((capacity : ℝ) ^ ((4 : ℝ))⁻¹) ^ (4 : ℕ) = (capacity : ℝ) := by
      have h4 : ((4 : ℝ))⁻¹ = (((4 : ℕ) : ℝ))⁻¹ := by norm_num
      rw [h4]
      exact Real.rpow_inv_natCast_pow (Nat.cast_nonneg capacity) (by norm_num)
    rw [hc]
    ring
  have hsat : mNum ^ 4 * capacity ≤ D ^ 4 * mDen ^ 4 := by
    rw [hD, inferEmbeddingDim]
    exact leastDimFrom_sat mNum mDen capacity (mNum * capacity + 1) 0
      (by simpa using satAtBound mNum mDen capacity hden)
  have hleast : ∀ e, e < D → ¬ (mNum ^ 4 * capacity ≤ e ^ 4 * mDen ^ 4) := by
    intro e he
    rw [hD, inferEmbeddingDim] at he
    exact leastDimFrom_least mNum mDen capacity (mNum * capacity + 1) 0 e
      (Nat.zero_le e) he
  apply le_antisymm
  · by_contra hcon
    push_neg at hcon
    have hne := hleast (Nat.ceil x) hcon
    apply hne
    have hle : x ≤ (Nat.ceil x : ℝ) := Nat.le_ceil x
    have hpow : x ^ (4 : ℕ) ≤ (Nat.ceil x : ℝ) ^ (4 : ℕ) :=
      pow_le_pow_left₀ hx0 hle 4
    rw [hx4, div_le_iff₀ hmden4] at hpow
    exact_mod_cast hpow
  · rw [Nat.ceil_le]
    by_contra hcon
    push_neg at hcon
    have hpow : (D : ℝ) ^ (4 : ℕ) < x ^ (4 : ℕ) :=
      pow_lt_pow_left₀ hcon (Nat.cast_nonneg D) (by norm_num)
    rw [hx4, lt_div_iff₀ hmden4] at hpow
    have : ¬ ((mNum : ℝ) ^ 4 * (capacity : ℝ) ≤ (D : ℝ) ^ 4 * (mDen : ℝ) ^ 4) := by
      push_neg
      exact hpow
    exact this (by exact_mod_cast hsat)

/-- Claim C8: with automatic embedding-size inference enabled with
multiplier `mNum / mDen`, the table allocated for a categorical column of
vocabulary size `capacity` has weight shape whose first axis is `capacity`
and whose second axis equals `ceil(multiplier * capacity ** 0.25)`; in
particular with multiplier 3.0, every capacity whose inferred dimension is
46 yields a table whose weight shape's second axis equals 46. -/
theorem inferred_embedding_dim_ceil_formula (mNum mDen capacity : Nat)
    (hden : 0 < mDen) :
    (inferredTableShape mNum mDen capacity).1 = capacity ∧
    (inferredTableShape mNum mDen capacity).2 =
      Nat.ceil ((mNum : ℝ) / (mDen : ℝ) * (capacity : ℝ) ^ ((4 : ℝ))⁻¹) ∧
    (inferEmbeddingDim 3 1 capacity = 46 →
      (inferredTableShape 3 1 capacity).2 = 46) :=
  ⟨rfl, inferEmbeddingDim_eq_ceil mNum mDen capacity hden, fun h => h⟩

/-- Witness for C8 at the concrete capacity 52000 (for which
`ceil(3.0 * 52000 ** 0.25) = 46`, since `45 ^ 4 < 81 * 52000 ≤ 46 ^ 4`):
the allocated table shape is `(52000, 46)` and the inferred dimension
agrees with the real-valued ceiling formula. -/
theorem inferred_embedding_dim_ceil_formula_witness :
    (inferredTableShape 3 1 52000).1 = 52000 ∧
    (inferredTableShape 3 1 52000).2 =
      Nat.ceil (((3 : Nat) : ℝ) / ((1 : Nat) : ℝ) *
        ((52000 : Nat) : ℝ) ^ ((4 : ℝ))⁻¹) ∧
    (inferredTableShape 3 1 52000).2 = 46 :=
  ⟨(inferred_embedding_dim_ceil_formula 3 1 52000 (by decide)).1,
   (inferred_embedding_dim_ceil_formula 3 1 52000 (by decide)).2.1,
   (inferred_embedding_dim_ceil_formula 3 1 52000 (by decide)).2.2 (by decide)⟩

end MerlinTorch
